import Mathlib

/-!
Shallow embedding of the TradeOrTighten game server core
(`src/backend/src/game/game-instance.ts` and `src/backend/src/game/order-book.ts`)
and verification of the frozen claims about it.

Conventions of the embedding:
* JS numbers are modelled as rationals (ℚ); player / market / order identifiers
  as naturals.
* JS `Map` and plain-object records are modelled as association lists
  `List (Nat × α)` with first-match lookup and in-place update of every
  matching entry (a well-formed map has no duplicate keys).
* `Date.now()` is passed explicitly as a `now : ℚ` argument to the operations
  that read the wall clock.
* The unbounded `while` loop of `OrderBook.match` and the unguarded recursion
  of `getMarketTrueValue` are modelled with explicit fuel.
-/

/-- First-match lookup in an association list (models `Map.get` / `obj[key]`). -/
def lookupA {α : Type} : List (Nat × α) → Nat → Option α
  | [], _ => none
  | (k, v) :: rest, key => if key = k then some v else lookupA rest key

/-- Update every entry with the given key (models in-place mutation of a map
entry; a well-formed map has at most one entry per key). -/
def updA {α : Type} (l : List (Nat × α)) (key : Nat) (f : α → α) : List (Nat × α) :=
  l.map (fun kv => if kv.1 = key then (kv.1, f kv.2) else kv)

/-! ## Order book (`order-book.ts`) -/

inductive Side
  | bid
  | ask
deriving DecidableEq

/-- An order resting in the book (`InternalOrder`): public `Order` fields plus
the monotone insertion sequence number `_index` (here `index`). -/
structure BOrder where
  oid : Nat
  playerId : Nat
  side : Side
  price : ℚ
  quantity : ℚ
  remainingQuantity : ℚ
  index : Nat
deriving DecidableEq

structure Trade where
  marketId : Nat
  bidOrderId : Nat
  askOrderId : Nat
  buyerId : Nat
  sellerId : Nat
  price : ℚ
  quantity : ℚ
deriving DecidableEq

/-- The pluggable fill validator: `(buyerId, sellerId, marketId, qty) → Bool`. -/
def Validator : Type := Nat → Nat → Nat → ℚ → Bool

/-- Comparator of `sortBook` for the bid side: descending price, ties broken by
ascending insertion index. -/
def bidLE (a b : BOrder) : Bool :=
  if a.price ≠ b.price then decide (b.price < a.price) else decide (a.index ≤ b.index)

/-- Comparator of `sortBook` for the ask side: ascending price, ties broken by
ascending insertion index. -/
def askLE (a b : BOrder) : Bool :=
  if a.price ≠ b.price then decide (a.price < b.price) else decide (a.index ≤ b.index)

/-- Ordered insertion used to model `Array.prototype.sort` with a total
comparator on a list that is already sorted except for the pushed element. -/
def insertOrd (le : BOrder → BOrder → Bool) (x : BOrder) : List BOrder → List BOrder
  | [] => [x]
  | y :: ys => if le x y then x :: y :: ys else y :: insertOrd le x ys

/-- Insertion sort by the comparator (models `list.sort(cmp)`). -/
def sortOrd (le : BOrder → BOrder → Bool) (l : List BOrder) : List BOrder :=
  l.foldr (insertOrd le) []

/-- Result of the matching loop: emitted trades plus the updated book sides. -/
structure MatchOut where
  trades : List Trade
  bids : List BOrder
  asks : List BOrder
  lastTradePrice : Option ℚ
deriving DecidableEq

/-- `OrderBook.match`: while both sides are non-empty and best bid ≥ best ask,
fill `min` of the remaining quantities at the price of the earlier-inserted
order; an unsatisfied validator stops the loop.  The JS `while` loop is given
explicit fuel; each iteration removes at least one order, so fuel
`bids.length + asks.length` is always sufficient (proved below). -/
def matchLoop (marketId : Nat) (validator : Option Validator) :
    Nat → List BOrder → List BOrder → Option ℚ → MatchOut
  | 0, bids, asks, ltp => ⟨[], bids, asks, ltp⟩
  | _ + 1, [], asks, ltp => ⟨[], [], asks, ltp⟩
  | _ + 1, bb :: bs, [], ltp => ⟨[], bb :: bs, [], ltp⟩
  | fuel + 1, bb :: bs, ba :: ar, ltp =>
    if bb.price < ba.price then ⟨[], bb :: bs, ba :: ar, ltp⟩
    else
      let qty := if bb.remainingQuantity ≤ ba.remainingQuantity then bb.remainingQuantity
        else ba.remainingQuantity
      let vOk : Bool := match validator with
        | none => true
        | some v => v bb.playerId ba.playerId marketId qty
      if vOk = false then ⟨[], bb :: bs, ba :: ar, ltp⟩
      else
        let price := if bb.index < ba.index then bb.price else ba.price
        let t : Trade := ⟨marketId, bb.oid, ba.oid, bb.playerId, ba.playerId, price, qty⟩
        let bbr := bb.remainingQuantity - qty
        let bar := ba.remainingQuantity - qty
        let bids1 := if bbr ≤ 0 then bs else { bb with remainingQuantity := bbr } :: bs
        let asks1 := if bar ≤ 0 then ar else { ba with remainingQuantity := bar } :: ar
        let res := matchLoop marketId validator fuel bids1 asks1 (some price)
        ⟨t :: res.trades, res.bids, res.asks, res.lastTradePrice⟩

/-- `OrderBook` state: the two sorted sides, the insertion counter, and the
last trade price (`orderById` is derivable from the sides and not modelled). -/
structure Book where
  marketId : Nat
  bids : List BOrder
  asks : List BOrder
  indexCounter : Nat
  lastTradePrice : Option ℚ
deriving DecidableEq

/-- `OrderBook.addOrder`: reject non-positive price or quantity (the JS code
throws), otherwise insert with a fresh insertion sequence, re-sort the side,
and run the matching loop. -/
def addOrder (b : Book) (playerId : Nat) (side : Side) (price quantity : ℚ)
    (validator : Option Validator) : Except String (Book × BOrder × List Trade) :=
  if quantity ≤ 0 ∨ price ≤ 0 then
    Except.error "Invalid order: price and quantity must be positive"
  else
    let idx := b.indexCounter
    let o : BOrder := ⟨idx, playerId, side, price, quantity, quantity, idx⟩
    let bids1 := if side = Side.bid then sortOrd bidLE (b.bids ++ [o]) else b.bids
    let asks1 := if side = Side.ask then sortOrd askLE (b.asks ++ [o]) else b.asks
    let res := matchLoop b.marketId validator (bids1.length + asks1.length)
      bids1 asks1 b.lastTradePrice
    let rem := (((res.bids ++ res.asks).find? (fun x => x.oid = idx)).map
      (fun x => x.remainingQuantity)).getD 0
    Except.ok
      ({ b with bids := res.bids, asks := res.asks, indexCounter := idx + 1,
                lastTradePrice := res.lastTradePrice },
       { o with remainingQuantity := rem }, res.trades)

/-- `OrderBook.getSpread`: `bestAsk − bestBid` when both sides are non-empty. -/
def getSpread (b : Book) : Option ℚ :=
  match b.bids, b.asks with
  | [], _ => none
  | _, [] => none
  | bb :: _, ba :: _ => some (ba.price - bb.price)

example :
    (matchLoop 0 none 2
      [⟨1, 10, Side.bid, 102, 3, 3, 1⟩] [⟨0, 20, Side.ask, 100, 3, 3, 0⟩] none).trades
      = [⟨0, 1, 0, 10, 20, 100, 3⟩] := by norm_num [matchLoop]

/-! ## Game instance (`game-instance.ts`) -/

inductive RoundStage
  | SPREAD_QUOTING
  | MARKET_MAKER_QUOTE
  | FORCED_TRADING
  | OPEN_TRADING
  | ROUND_END
deriving DecidableEq

inductive GameStatus
  | lobby
  | playing
  | paused
  | stopped
deriving DecidableEq

/-- One per-market position: `{ marketId, quantity, avgCost? }` (the marketId
field is the association-list key and not repeated inside). -/
structure Position where
  quantity : ℚ
  avgCost : Option ℚ
deriving DecidableEq

structure PlayerState where
  cash : ℚ
  positions : List (Nat × Position)
  roundPnl : ℚ
  totalPnl : ℚ
  isMarketMaker : Bool
  isGamemaster : Bool
deriving DecidableEq

structure Quote where
  bid : ℚ
  ask : ℚ
deriving DecidableEq

structure RoundState where
  roundIndex : Nat
  stage : RoundStage
  marketId : Nat
  bestSpread : Option ℚ
  bestSpreadPlayerId : Option Nat
  spreadSubmissions : List (Nat × ℚ)
  marketMakerQuote : Option Quote
  stageEndsAt : Option ℚ
  noTighterUntil : Option ℚ
deriving DecidableEq

structure Market where
  mid : Nat
  underlyingWeights : Option (List (Nat × ℚ))
deriving DecidableEq

/-- `GameInstance` mutable state.  Armed JS timers are modelled by their
absolute expiry time (`none` = not armed); callbacks are not modelled. -/
structure Game where
  status : GameStatus
  markets : List Market
  currentMarketIndex : Nat
  currentRoundIndex : Nat
  round : Option RoundState
  players : List (Nat × PlayerState)
  book : Option Book
  showIndividualPositions : Bool
  marketTrueValues : List (Nat × ℚ)
  allMarketsComplete : Bool
  pnlFinalized : Bool
  maxExposure : ℚ
  spreadTimer : Option ℚ
  openTradingTimer : Option ℚ
  noTighterTimer : Option ℚ
  timerInterval : Option ℚ
  spreadTimerMs : ℚ
  openTradingTimerMs : ℚ
  noTighterWindowMs : ℚ
deriving DecidableEq

/-- `this.players.get(playerId)?.isGamemaster ?? false` (an absent player is
not a gamemaster). -/
def isGamemasterP (g : Game) (playerId : Nat) : Bool :=
  ((lookupA g.players playerId).map (fun p => p.isGamemaster)).getD false

/-- `GameInstance.wouldExceedExposure`: with no limit return false; an absent
player counts as exceeding; otherwise test `|current + delta| > maxExposure`. -/
def wouldExceedExposure (g : Game) (playerId marketId : Nat) (newPositionDelta : ℚ) : Bool :=
  if g.maxExposure ≤ 0 then false
  else
    match lookupA g.players playerId with
    | none => true
    | some p =>
      let current := ((lookupA p.positions marketId).map (fun pos => pos.quantity)).getD 0
      decide (g.maxExposure < |current + newPositionDelta|)

/-- The `for (const [mid, w] of entries)` accumulation of
`getMarketTrueValue`, abstracted over the evaluation of one underlying:
return `undefined` as soon as one underlying is undefined, else the weighted
sum. -/
def sumUnderlyingsF (ev : Nat → Option (Option ℚ)) : List (Nat × ℚ) → ℚ → Option (Option ℚ)
  | [], acc => some (some acc)
  | (mid, w) :: rest, acc =>
    match ev mid with
    | none => none
    | some none => some none
    | some (some v) => sumUnderlyingsF ev rest (acc + w * v)

/-- `GameInstance.getMarketTrueValue`, with explicit fuel for the unguarded
recursion through `underlyingWeights`.  `none` means the fuel ran out (the JS
code recurses there), `some none` models a `undefined` result, `some (some v)`
a defined value. -/
def getMarketTrueValueFuel (g : Game) : Nat → Nat → Option (Option ℚ)
  | 0, _ => none
  | fuel + 1, marketId =>
    match lookupA g.marketTrueValues marketId with
    | some v => some (some v)
    | none =>
      match g.markets.find? (fun m => m.mid = marketId) with
      | none => some none
      | some m =>
        match m.underlyingWeights with
        | none => some none
        | some ws => sumUnderlyingsF (getMarketTrueValueFuel g fuel) ws 0

/-- `GameInstance.clearTimers`: disarm all four timers and null out
`round.stageEndsAt`. -/
def clearTimers (g : Game) : Game :=
  { g with spreadTimer := none, openTradingTimer := none, noTighterTimer := none,
           timerInterval := none,
           round := g.round.map (fun r => { r with stageEndsAt := none }) }

/-- `GameInstance.scheduleStageEnd`: clear timers, set
`round.stageEndsAt = now + ms`, arm the tick interval and the one-shot stage
timer of the current stage. -/
def scheduleStageEnd (g : Game) (now ms : ℚ) : Game :=
  let g1 := clearTimers g
  let endsAt := now + ms
  let g2 : Game :=
    { g1 with round := g1.round.map (fun r => { r with stageEndsAt := some endsAt }),
              timerInterval := some endsAt }
  match g2.round with
  | some r =>
    if r.stage = RoundStage.SPREAD_QUOTING then { g2 with spreadTimer := some endsAt }
    else if r.stage = RoundStage.OPEN_TRADING then { g2 with openTradingTimer := some endsAt }
    else g2
  | none => g2

/-- `GameInstance.setTimer(seconds)`: always clears timers and stamps
`stageEndsAt`; only SPREAD_QUOTING and OPEN_TRADING get a scheduled stage
end. -/
def setTimer (g : Game) (now seconds : ℚ) : Game :=
  match g.round with
  | none => g
  | some r =>
    let ms := seconds * 1000
    let g1 := clearTimers g
    let g2 : Game :=
      { g1 with round := g1.round.map (fun rr => { rr with stageEndsAt := some (now + ms) }) }
    if r.stage = RoundStage.SPREAD_QUOTING then scheduleStageEnd g2 now ms
    else if r.stage = RoundStage.OPEN_TRADING then scheduleStageEnd g2 now ms
    else g2

/-- `GameInstance.pause`: unconditionally set status to paused and clear
timers (no guard on the current status). -/
def pause (g : Game) : Game :=
  clearTimers { g with status := GameStatus.paused }

/-- `GameInstance.stop`: refused while all markets are complete but the P&L is
not finalized; otherwise set status to stopped and clear timers. -/
def stop (g : Game) : Bool × Game :=
  if g.allMarketsComplete ∧ ¬g.pnlFinalized then (false, g)
  else (true, clearTimers { g with status := GameStatus.stopped })

/-- `GameInstance.submitSpread`: reject gamemasters, wrong stage, non-positive
widths and widths not strictly tighter than the current best; on accept record
the new best spread and re-arm the no-tighter timer. -/
def submitSpread (g : Game) (playerId : Nat) (spreadWidth now : ℚ) : Bool × Game :=
  if isGamemasterP g playerId then (false, g)
  else
    match g.round with
    | none => (false, g)
    | some r =>
      if r.stage ≠ RoundStage.SPREAD_QUOTING then (false, g)
      else if spreadWidth ≤ 0 then (false, g)
      else if (match r.bestSpread with
               | some b => decide (b ≤ spreadWidth)
               | none => false) then (false, g)
      else
        let r1 := { r with bestSpread := some spreadWidth,
                           bestSpreadPlayerId := some playerId,
                           spreadSubmissions := r.spreadSubmissions ++ [(playerId, spreadWidth)],
                           noTighterUntil := some (now + g.noTighterWindowMs) }
        (true, { g with round := some r1, noTighterTimer := some (now + g.noTighterWindowMs) })

inductive Direction
  | buy
  | sell
deriving DecidableEq

/-- The average-cost recomputation applied to a position that absorbs a fill:
`quantity += delta`, and the new average cost is the quantity-weighted mean
(set to undefined when the position returns to zero). -/
def posAfterFill (pos : Position) (delta price quantity : ℚ) : Position :=
  let prevQty := pos.quantity
  let newQty := prevQty + delta
  let prevCost := pos.avgCost.getD 0
  { quantity := newQty,
    avgCost := if newQty = 0 then none
      else some ((prevCost * |prevQty| + price * quantity) / |newQty|) }

/-- `GameInstance.executeForcedTrade`: a non-MM, non-GM player trades against
the recorded market-maker quote; note that the MM side is applied only when
the MM id is still present in the player map. -/
def executeForcedTrade (g : Game) (playerId : Nat) (direction : Direction)
    (quantity : ℚ) : Bool × Game :=
  if isGamemasterP g playerId then (false, g)
  else
    match g.round with
    | none => (false, g)
    | some r =>
      if r.stage ≠ RoundStage.FORCED_TRADING then (false, g)
      else
        match r.marketMakerQuote with
        | none => (false, g)
        | some q =>
          if r.bestSpreadPlayerId = some playerId then (false, g)
          else
            match lookupA g.players playerId with
            | none => (false, g)
            | some _ =>
              if quantity ≤ 0 then (false, g)
              else
                let positionDelta := if direction = Direction.buy then quantity else -quantity
                if wouldExceedExposure g playerId r.marketId positionDelta then (false, g)
                else
                  let mmPresent := (r.bestSpreadPlayerId.bind (lookupA g.players)).isSome
                  if mmPresent ∧
                      wouldExceedExposure g (r.bestSpreadPlayerId.getD 0) r.marketId
                        (-positionDelta) then (false, g)
                  else
                    let price := if direction = Direction.buy then q.ask else q.bid
                    let cashDelta := if direction = Direction.buy then -price * quantity
                      else price * quantity
                    let players1 := updA g.players playerId (fun p =>
                      { p with cash := p.cash + cashDelta,
                               positions := updA p.positions r.marketId
                                 (fun pos => posAfterFill pos positionDelta price quantity) })
                    let players2 :=
                      match r.bestSpreadPlayerId with
                      | none => players1
                      | some mmId =>
                        if (lookupA g.players mmId).isSome then
                          updA players1 mmId (fun p =>
                            { p with cash := p.cash - cashDelta,
                                     positions := updA p.positions r.marketId
                                       (fun pos => { pos with
                                         quantity := pos.quantity - positionDelta }) })
                        else players1
                    (true, { g with players := players2 })

/-- `GameInstance.applyTrade`: settle one order-book trade against the two
principals (skipping any principal no longer in the player map); the buyer's
average cost is recomputed, the seller's is not. -/
def applyTrade (g : Game) (t : Trade) : Game :=
  let cost := t.price * t.quantity
  let players1 := updA g.players t.buyerId (fun p =>
    { p with cash := p.cash - cost,
             positions := updA p.positions t.marketId
               (fun pos => posAfterFill pos t.quantity t.price t.quantity) })
  let players2 := updA players1 t.sellerId (fun p =>
    { p with cash := p.cash + cost,
             positions := updA p.positions t.marketId
               (fun pos => { pos with quantity := pos.quantity - t.quantity }) })
  { g with players := players2 }

/-- `GameInstance.submitOrder`: during OPEN_TRADING, delegate to the order
book with a validator capturing the exposure limit (when enabled), then apply
every produced trade to the player states.  The validator reads the player
map as it was when the order was submitted; the fills of one batch are
applied only after the whole match loop has finished. -/
def submitOrder (g : Game) (playerId : Nat) (side : Side) (price quantity : ℚ) :
    Bool × List Trade × Game :=
  if isGamemasterP g playerId then (false, [], g)
  else
    match g.round with
    | none => (false, [], g)
    | some r =>
      if r.stage ≠ RoundStage.OPEN_TRADING then (false, [], g)
      else
        match g.book with
        | none => (false, [], g)
        | some bk =>
          let validator : Option Validator :=
            if 0 < g.maxExposure then
              some (fun buyerId sellerId marketId qty =>
                !(wouldExceedExposure g buyerId marketId qty) &&
                !(wouldExceedExposure g sellerId marketId (-qty)))
            else none
          match addOrder bk playerId side price quantity validator with
          | Except.error _ => (false, [], g)
          | Except.ok (bk1, _, trades) =>
            let g1 : Game := { g with book := some bk1 }
            (true, trades, trades.foldl applyTrade g1)

/-! ### Snapshot projection -/

/-- The projected `GameState` returned by `getSnapshot` (fields the claims
are about; `marketTrueValues = none` models the key being absent). -/
structure GState where
  status : GameStatus
  markets : List Market
  currentMarketIndex : Nat
  currentRoundIndex : Nat
  round : Option RoundState
  players : List (Nat × PlayerState)
  showIndividualPositions : Bool
  allMarketsComplete : Bool
  pnlFinalized : Bool
  maxExposure : Option ℚ
  marketTrueValues : Option (List (Nat × ℚ))
deriving DecidableEq

/-- `GameInstance.sanitizePlayerState`: with individual positions hidden,
blank out positions, cash and round P&L but keep the total P&L. -/
def sanitizePlayerState (g : Game) (p : PlayerState) : PlayerState :=
  if g.showIndividualPositions then p
  else { p with positions := [], cash := 0, roundPnl := 0 }

/-- The gamemaster branch of `getSnapshot`: the stored true values, augmented
with every computable derivative value. -/
def gmTrueValues (g : Game) (fuel : Nat) : List (Nat × ℚ) :=
  g.markets.foldl (fun acc m =>
    match lookupA acc m.mid with
    | some _ => acc
    | none =>
      match getMarketTrueValueFuel g fuel m.mid with
      | some (some v) => acc ++ [(m.mid, v)]
      | _ => acc) g.marketTrueValues

/-- `GameInstance.getSnapshot(forGamemaster, viewerPlayerId?)`. -/
def getSnapshot (g : Game) (forGamemaster : Bool) (viewerPlayerId : Option Nat)
    (fuel : Nat) : GState :=
  let playersRecord := g.players.map (fun kv => (kv.1, sanitizePlayerState g kv.2))
  let st : GState :=
    { status := g.status, markets := g.markets,
      currentMarketIndex := g.currentMarketIndex,
      currentRoundIndex := g.currentRoundIndex,
      round := g.round, players := playersRecord,
      showIndividualPositions := g.showIndividualPositions,
      allMarketsComplete := g.allMarketsComplete, pnlFinalized := g.pnlFinalized,
      maxExposure := if g.maxExposure = 0 then none else some g.maxExposure,
      marketTrueValues := none }
  let st1 := if forGamemaster then { st with marketTrueValues := some (gmTrueValues g fuel) }
    else st
  match viewerPlayerId with
  | none => st1
  | some v =>
    if forGamemaster = false ∧ (lookupA st1.players v).isSome then
      { st1 with players := updA st1.players v (fun p => { p with cash := 0 }) }
    else st1

/-! ## Concrete fixtures used by counterexamples and witnesses -/

/-- A round in its initial SPREAD_QUOTING shape. -/
def baseRound : RoundState :=
  { roundIndex := 0, stage := RoundStage.SPREAD_QUOTING, marketId := 0,
    bestSpread := none, bestSpreadPlayerId := none, spreadSubmissions := [],
    marketMakerQuote := none, stageEndsAt := none, noTighterUntil := none }

/-- A freshly joined non-GM player holding a zero position in market 0. -/
def basePlayer : PlayerState :=
  { cash := 10000, positions := [(0, ⟨0, none⟩)], roundPnl := 0, totalPnl := 0,
    isMarketMaker := false, isGamemaster := false }

/-- A playing game on a single plain market 0 with default timer config. -/
def baseGame : Game :=
  { status := GameStatus.playing, markets := [⟨0, none⟩], currentMarketIndex := 0,
    currentRoundIndex := 0, round := some baseRound, players := [], book := none,
    showIndividualPositions := true, marketTrueValues := [], allMarketsComplete := false,
    pnlFinalized := false, maxExposure := 0, spreadTimer := none, openTradingTimer := none,
    noTighterTimer := none, timerInterval := none, spreadTimerMs := 60000,
    openTradingTimerMs := 120000, noTighterWindowMs := 10000 }

/-- Exposure-limit scenario: limit 5, three flat players, two resting asks of
five units each at price 10 (insertion sequences 0 and 1). -/
def gExpo : Game :=
  { baseGame with
    maxExposure := 5,
    players := [(1, basePlayer), (2, basePlayer), (3, basePlayer)],
    round := some { baseRound with stage := RoundStage.OPEN_TRADING },
    book := some { marketId := 0, bids := [],
                   asks := [⟨0, 1, Side.ask, 10, 5, 5, 0⟩, ⟨1, 3, Side.ask, 10, 5, 5, 1⟩],
                   indexCounter := 2, lastTradePrice := none } }

/-- Cyclic derivative: market 0 is its own underlying with weight 1 and has no
directly set true value. -/
def gCycle : Game :=
  { baseGame with markets := [⟨0, some [(0, 1)]⟩], marketTrueValues := [] }

/-- A round stuck in FORCED_TRADING with an armed no-tighter timer. -/
def gForced : Game :=
  { baseGame with round := some { baseRound with stage := RoundStage.FORCED_TRADING },
                  noTighterTimer := some 5000 }

/-- Spread-quoting with a current best spread of 3 held by player 9. -/
def gSpread : Game :=
  { baseGame with
    players := [(1, basePlayer)],
    round := some { baseRound with bestSpread := some 3, bestSpreadPlayerId := some 9 } }

/-- Forced-trading scenario of spec scenario S1: player 2 is the market maker
quoting (99, 101); player 1 is a plain trader. -/
def gMM : Game :=
  { baseGame with
    players := [(1, basePlayer), (2, basePlayer)],
    round := some { baseRound with
                    stage := RoundStage.FORCED_TRADING,
                    bestSpread := some 2, bestSpreadPlayerId := some 2,
                    marketMakerQuote := some ⟨99, 101⟩ } }

/-- Forced trading after the market maker (id 99) left the game; the recorded
quote has bid 0 and ask 2. -/
def gGhost : Game :=
  { baseGame with
    players := [(1, basePlayer)],
    round := some { baseRound with
                    stage := RoundStage.FORCED_TRADING,
                    bestSpread := some 2, bestSpreadPlayerId := some 99,
                    marketMakerQuote := some ⟨0, 2⟩ } }

/-- Snapshot scenario: positions hidden, one player with non-trivial fields. -/
def gHide : Game :=
  { baseGame with
    showIndividualPositions := false,
    players := [(1, { cash := 123, positions := [(0, ⟨4, some 5⟩)], roundPnl := 5,
                      totalPnl := 7, isMarketMaker := false, isGamemaster := false })] }

/-- A book with one resting ask of one unit at price 5. -/
def bkAsk5 : Book :=
  { marketId := 0, bids := [], asks := [⟨0, 7, Side.ask, 5, 1, 1, 0⟩],
    indexCounter := 1, lastTradePrice := none }

/-- A book with resting asks at 5 (one unit) and 9 (five units). -/
def bkAsk59 : Book :=
  { marketId := 0, bids := [],
    asks := [⟨0, 7, Side.ask, 5, 1, 1, 0⟩, ⟨1, 8, Side.ask, 9, 5, 5, 1⟩],
    indexCounter := 2, lastTradePrice := none }

/-- A validator that refuses every fill. -/
def valFalse : Validator := fun _ _ _ _ => false

/-- Total cash held by the players of an association list. -/
def sumCash (players : List (Nat × PlayerState)) : ℚ :=
  (players.map (fun kv => kv.2.cash)).sum

/-- The fields of an order that identify it across remaining-quantity updates:
order id, insertion index, price. -/
def osig (o : BOrder) : Nat × Nat × ℚ := (o.oid, o.index, o.price)


/-! ## Association-list lemmas -/

theorem lookupA_cons {α : Type} (k0 : Nat) (v0 : α) (tl : List (Nat × α)) (key : Nat) :
    lookupA ((k0, v0) :: tl) key = if key = k0 then some v0 else lookupA tl key := rfl

theorem updA_nil {α : Type} (key : Nat) (f : α → α) : updA ([] : List (Nat × α)) key f = [] := rfl

theorem updA_cons {α : Type} (k0 : Nat) (v0 : α) (tl : List (Nat × α)) (key : Nat) (f : α → α) :
    updA ((k0, v0) :: tl) key f
      = (if k0 = key then (k0, f v0) else (k0, v0)) :: updA tl key f := rfl

theorem lookupA_updA_self {α : Type} (l : List (Nat × α)) (k : Nat) (f : α → α) :
    lookupA (updA l k f) k = (lookupA l k).map f := by
  induction l with
  | nil => rfl
  | cons hd tl ih =>
    obtain ⟨k0, v0⟩ := hd
    by_cases h : k = k0
    · subst h
      rw [updA_cons, if_pos rfl, lookupA_cons, if_pos rfl, lookupA_cons, if_pos rfl]
      rfl
    · rw [updA_cons, if_neg (fun hh => h hh.symm), lookupA_cons, if_neg h,
        lookupA_cons, if_neg h, ih]

theorem lookupA_updA_ne {α : Type} (l : List (Nat × α)) (k k2 : Nat) (f : α → α)
    (h : k2 ≠ k) : lookupA (updA l k f) k2 = lookupA l k2 := by
  induction l with
  | nil => rfl
  | cons hd tl ih =>
    obtain ⟨k0, v0⟩ := hd
    by_cases h0 : k0 = k
    · subst h0
      rw [updA_cons, if_pos rfl, lookupA_cons, if_neg h, lookupA_cons, if_neg h, ih]
    · rw [updA_cons, if_neg h0, lookupA_cons, lookupA_cons]
      by_cases h2 : k2 = k0
      · rw [if_pos h2, if_pos h2]
      · rw [if_neg h2, if_neg h2, ih]

theorem lookupA_map_val {α β : Type} (f : α → β) (l : List (Nat × α)) (k : Nat) :
    lookupA (l.map (fun kv => (kv.1, f kv.2))) k = (lookupA l k).map f := by
  induction l with
  | nil => rfl
  | cons hd tl ih =>
    obtain ⟨k0, v0⟩ := hd
    show lookupA ((k0, f v0) :: tl.map (fun kv => (kv.1, f kv.2))) k = _
    rw [lookupA_cons, lookupA_cons]
    by_cases h : k = k0
    · rw [if_pos h, if_pos h]
      rfl
    · rw [if_neg h, if_neg h, ih]

theorem updA_of_not_mem {α : Type} (l : List (Nat × α)) (k : Nat) (f : α → α)
    (h : k ∉ l.map Prod.fst) : updA l k f = l := by
  induction l with
  | nil => rfl
  | cons hd tl ih =>
    obtain ⟨k0, v0⟩ := hd
    simp only [List.map_cons, List.mem_cons] at h
    push_neg at h
    rw [updA_cons, if_neg (fun hh => h.1 hh.symm), ih h.2]

theorem mem_updA {α : Type} {l : List (Nat × α)} {k : Nat} {f : α → α} {kv : Nat × α}
    (h : kv ∈ updA l k f) :
    ∃ kv0, kv0 ∈ l ∧ kv.1 = kv0.1 ∧ (kv.2 = kv0.2 ∨ kv.2 = f kv0.2) := by
  induction l with
  | nil => simp [updA_nil] at h
  | cons hd tl ih =>
    obtain ⟨k0, v0⟩ := hd
    rw [updA_cons] at h
    rcases List.mem_cons.mp h with h1 | h1
    · by_cases h0 : k0 = k
      · rw [if_pos h0] at h1
        exact ⟨(k0, v0), List.mem_cons_self _ _, by rw [h1], Or.inr (by rw [h1])⟩
      · rw [if_neg h0] at h1
        exact ⟨(k0, v0), List.mem_cons_self _ _, by rw [h1], Or.inl (by rw [h1])⟩
    · obtain ⟨kv0, hmem, hfst, hsnd⟩ := ih h1
      exact ⟨kv0, List.mem_cons_of_mem _ hmem, hfst, hsnd⟩

theorem sumCash_cons (k0 : Nat) (v0 : PlayerState) (tl : List (Nat × PlayerState)) :
    sumCash ((k0, v0) :: tl) = v0.cash + sumCash tl := by
  simp [sumCash]

theorem sumCash_updA (l : List (Nat × PlayerState)) (k : Nat) (f : PlayerState → PlayerState)
    (p : PlayerState) (hnd : (l.map Prod.fst).Nodup) (hk : lookupA l k = some p) :
    sumCash (updA l k f) = sumCash l - p.cash + (f p).cash := by
  induction l with
  | nil => simp [lookupA] at hk
  | cons hd tl ih =>
    obtain ⟨k0, v0⟩ := hd
    simp only [List.map_cons, List.nodup_cons] at hnd
    by_cases h : k = k0
    · subst h
      rw [lookupA_cons, if_pos rfl] at hk
      injection hk with hk
      subst hk
      rw [updA_cons, if_pos rfl, updA_of_not_mem tl _ f hnd.1, sumCash_cons, sumCash_cons]
      ring
    · rw [lookupA_cons, if_neg h] at hk
      rw [updA_cons, if_neg (fun hh => h hh.symm), sumCash_cons, sumCash_cons,
        ih hnd.2 hk]
      ring

/-! ## Matching-loop lemmas -/

theorem matchLoop_uncrossed (mid : Nat) :
    ∀ (fuel : Nat) (bids asks : List BOrder) (ltp : Option ℚ),
      bids.length + asks.length ≤ fuel →
      ∀ bb ba, (matchLoop mid none fuel bids asks ltp).bids.head? = some bb →
        (matchLoop mid none fuel bids asks ltp).asks.head? = some ba →
        bb.price < ba.price := by
  intro fuel
  induction fuel with
  | zero =>
    intro bids asks ltp hlen bb ba hb ha
    have h0 : bids.length = 0 := by omega
    rw [List.length_eq_zero] at h0
    subst h0
    simp [matchLoop] at hb
  | succ n ih =>
    intro bids asks ltp hlen bb ba hb ha
    match bids, asks with
    | [], asks => simp [matchLoop] at hb
    | bb0 :: bs, [] => simp [matchLoop] at ha
    | bb0 :: bs, ba0 :: ar =>
      by_cases hp : bb0.price < ba0.price
      · rw [matchLoop, if_pos hp] at hb ha
        simp only [List.head?_cons, Option.some.injEq] at hb ha
        rw [← hb, ← ha]
        exact hp
      · rw [matchLoop, if_neg hp] at hb ha
        simp only at hb ha
        by_cases hq : bb0.remainingQuantity ≤ ba0.remainingQuantity
        · rw [if_pos hq] at hb ha
          simp only [sub_self, le_refl, if_pos] at hb ha
          by_cases hr : ba0.remainingQuantity - bb0.remainingQuantity ≤ 0
          · rw [if_pos hr] at hb ha
            refine ih bs ar _ (by simp at hlen ⊢; omega) bb ba hb ha
          · rw [if_neg hr] at hb ha
            refine ih bs _ _ (by simp at hlen ⊢; omega) bb ba hb ha
        · rw [if_neg hq] at hb ha
          push_neg at hq
          have hbbr : ¬ bb0.remainingQuantity - ba0.remainingQuantity ≤ 0 := by linarith
          rw [if_neg hbbr, sub_self, if_pos le_rfl] at hb ha
          refine ih _ ar _ (by simp at hlen ⊢; omega) bb ba hb ha

theorem matchLoop_price_priority (mid : Nat) (v : Option Validator) :
    ∀ (fuel : Nat) (bids asks : List BOrder) (ltp : Option ℚ) (t : Trade),
      t ∈ (matchLoop mid v fuel bids asks ltp).trades →
      ∃ bi ai bp ap,
        (t.bidOrderId, bi, bp) ∈ bids.map osig ∧
        (t.askOrderId, ai, ap) ∈ asks.map osig ∧
        (bi < ai → t.price = bp) ∧ (ai ≤ bi → t.price = ap) := by
  intro fuel
  induction fuel with
  | zero =>
    intro bids asks ltp t ht
    simp [matchLoop] at ht
  | succ n ih =>
    intro bids asks ltp t ht
    match bids, asks with
    | [], asks => simp [matchLoop] at ht
    | bb0 :: bs, [] => simp [matchLoop] at ht
    | bb0 :: bs, ba0 :: ar =>
      rw [matchLoop] at ht
      by_cases hp : bb0.price < ba0.price
      · rw [if_pos hp] at ht
        simp at ht
      · rw [if_neg hp] at ht
        simp only at ht
        split_ifs at ht
        all_goals simp at ht
        all_goals rcases ht with heq | hrec
        all_goals try
          (subst heq
           refine ⟨bb0.index, ba0.index, bb0.price, ba0.price,
             List.mem_map.mpr ⟨bb0, List.mem_cons_self _ _, rfl⟩,
             List.mem_map.mpr ⟨ba0, List.mem_cons_self _ _, rfl⟩, ?_, ?_⟩ <;>
           (intro h
            first
            | rfl
            | (exfalso; omega)))
        all_goals
          obtain ⟨bi, ai, bp, ap, hm1, hm2, hi3, hi4⟩ := ih _ _ _ t hrec
        all_goals refine ⟨bi, ai, bp, ap, ?_, ?_, hi3, hi4⟩
        all_goals simp only [List.map_cons, osig] at hm1 hm2 ⊢
        all_goals first
          | exact hm1
          | exact hm2
          | exact List.mem_cons_of_mem _ hm1
          | exact List.mem_cons_of_mem _ hm2

/-! ## Claim theorems -/

/-- C2: refuted (code bug).  `getMarketTrueValue` has no visited set: on the
cyclic market set of `gCycle` (market 0 is its own underlying and has no
direct value) the recursion exhausts every amount of fuel, i.e. the JS code
recurses unboundedly instead of terminating with `undefined`. -/
theorem getMarketTrueValue_cycle_diverges :
    ∀ fuel : Nat, getMarketTrueValueFuel gCycle fuel 0 = none := by
  intro fuel
  induction fuel with
  | zero => rfl
  | succ n ih =>
    have hstep : getMarketTrueValueFuel gCycle (n + 1) 0 =
        (match getMarketTrueValueFuel gCycle n 0 with
         | none => none
         | some none => some none
         | some (some v) => sumUnderlyingsF (getMarketTrueValueFuel gCycle n) [] (0 + 1 * v)) :=
      rfl
    rw [hstep, ih]

/-- C3: refuted (code bug).  `stopped` is not a terminal status: stopping the
game succeeds, but a subsequent `pause()` is not guarded by the status and
moves the game from `stopped` to `paused`. -/
theorem stop_then_pause_changes_status :
    (stop baseGame).1 = true ∧
    (stop baseGame).2.status = GameStatus.stopped ∧
    (pause (stop baseGame).2).status = GameStatus.paused ∧
    GameStatus.paused ≠ GameStatus.stopped := by
  refine ⟨?_, ?_, ?_, by decide⟩ <;> rfl

/-- Characterization of `setTimer` in the stages that do not schedule a stage
end: the timers are cleared and `stageEndsAt` is stamped anyway. -/
theorem setTimerFrozenStages (g : Game) (now seconds : ℚ) (r : RoundState)
    (hr : g.round = some r)
    (h1 : r.stage ≠ RoundStage.SPREAD_QUOTING)
    (h2 : r.stage ≠ RoundStage.OPEN_TRADING) :
    setTimer g now seconds =
      { g with round := some { r with stageEndsAt := some (now + seconds * 1000) },
               spreadTimer := none, openTradingTimer := none,
               noTighterTimer := none, timerInterval := none } := by
  simp [setTimer, clearTimers, hr, h1, h2]

/-- C4 counterexample: with the round in FORCED_TRADING and the no-tighter
timer armed, `setTimer(30)` at time 1000 overwrites `stageEndsAt` (from
`none` to `31000`) and cancels the pending timer: it is not a no-op. -/
theorem setTimer_forced_not_noop :
    (setTimer gForced 1000 30).round.map RoundState.stageEndsAt ≠
      gForced.round.map RoundState.stageEndsAt ∧
    (setTimer gForced 1000 30).round.map RoundState.stageEndsAt = some (some 31000) ∧
    gForced.round.map RoundState.stageEndsAt = some none ∧
    (setTimer gForced 1000 30).noTighterTimer = none ∧
    gForced.noTighterTimer = some 5000 := by
  rw [setTimerFrozenStages gForced 1000 30
    { baseRound with stage := RoundStage.FORCED_TRADING } rfl (by decide) (by decide)]
  refine ⟨by decide, ?_, rfl, rfl, rfl⟩
  norm_num [gForced, baseGame, baseRound]

/-- C4 amended: in stages other than SPREAD_QUOTING and OPEN_TRADING,
`setTimer(seconds)` still cancels all pending timers and sets
`round.stageEndsAt := now + seconds·1000`, but schedules no stage end; all
other game state is unchanged. -/
theorem setTimer_other_stages (g : Game) (now seconds : ℚ) (r : RoundState)
    (hr : g.round = some r)
    (h1 : r.stage ≠ RoundStage.SPREAD_QUOTING)
    (h2 : r.stage ≠ RoundStage.OPEN_TRADING) :
    setTimer g now seconds =
      { g with round := some { r with stageEndsAt := some (now + seconds * 1000) },
               spreadTimer := none, openTradingTimer := none,
               noTighterTimer := none, timerInterval := none } :=
  setTimerFrozenStages g now seconds r hr h1 h2

/-- C4 witness: the amended statement evaluated on the FORCED_TRADING
fixture. -/
theorem setTimer_other_stages_witness :
    setTimer gForced 1000 30 =
      { gForced with
        round := some { baseRound with
                        stage := RoundStage.FORCED_TRADING,
                        stageEndsAt := some (1000 + 30 * 1000) },
        spreadTimer := none, openTradingTimer := none,
        noTighterTimer := none, timerInterval := none } :=
  setTimer_other_stages gForced 1000 30
    { baseRound with stage := RoundStage.FORCED_TRADING } rfl (by decide) (by decide)

/-- C5: confirmed.  `submitSpread` rejects gamemasters, non-positive widths,
and widths not strictly below the current best (ties rejected); an accepted
submission happens only in SPREAD_QUOTING, has positive width, installs its
width as the new best spread and is strictly below any previous best — so the
successive non-null `bestSpread` values of a round are strictly decreasing. -/
theorem submitSpread_spec (g : Game) (pid : Nat) (w now : ℚ) :
    (isGamemasterP g pid = true → (submitSpread g pid w now).1 = false) ∧
    (w ≤ 0 → (submitSpread g pid w now).1 = false) ∧
    (∀ r b, g.round = some r → r.bestSpread = some b → b ≤ w →
      (submitSpread g pid w now).1 = false) ∧
    ((submitSpread g pid w now).1 = true →
      ∃ r, g.round = some r ∧ r.stage = RoundStage.SPREAD_QUOTING ∧ 0 < w ∧
        ((submitSpread g pid w now).2.round.map RoundState.bestSpread) = some (some w) ∧
        ∀ b, r.bestSpread = some b → w < b) := by
  by_cases hgm : isGamemasterP g pid = true
  · simp [submitSpread, hgm]
  · cases hr : g.round with
    | none => simp [submitSpread, hgm, hr]
    | some r =>
      by_cases hst : r.stage = RoundStage.SPREAD_QUOTING
      · by_cases hw : w ≤ 0
        · simp [submitSpread, hgm, hr, hst, hw]
        · have hw0 : 0 < w := lt_of_not_le hw
          cases hbs : r.bestSpread with
          | none =>
            simp [submitSpread, hgm, hr, hst, hw, hbs, hw0]
            rintro r1 b rfl hb
            rw [hbs] at hb
            cases hb
          | some b0 =>
            by_cases hbw : b0 ≤ w
            · simp [submitSpread, hgm, hr, hst, hw, hbs, hbw]
            · have hlt : w < b0 := lt_of_not_le hbw
              simp [submitSpread, hgm, hr, hst, hw, hbs, hbw, hw0, hlt]
              rintro r1 b rfl hb
              rw [hbs] at hb
              obtain rfl := Option.some.inj hb
              exact hlt
      · simp [submitSpread, hgm, hr, hst]

/-- C5 witness: against a current best spread of 3, a submission of width 2 by
player 1 is accepted and becomes the new best. -/
theorem submitSpread_spec_witness :
    (submitSpread gSpread 1 2 0).1 = true ∧
    ((submitSpread gSpread 1 2 0).2.round.map RoundState.bestSpread) = some (some 2) ∧
    (2 : ℚ) < 3 := by
  have hok : (submitSpread gSpread 1 2 0).1 = true := by
    norm_num [submitSpread, gSpread, baseGame, baseRound, basePlayer, isGamemasterP, lookupA]
  obtain ⟨r, hr, hst, hw, hbest, hlt⟩ := (submitSpread_spec gSpread 1 2 0).2.2.2 hok
  have hre : { baseRound with
               bestSpread := some (3 : ℚ),
               bestSpreadPlayerId := some 9 } = r := Option.some.inj hr
  exact ⟨hok, hbest, hlt 3 (by rw [← hre])⟩

/-- Snapshot shape for a non-GM recipient: no true values are attached. -/
theorem getSnapshot_false_mtv (g : Game) (viewer : Option Nat) (fuel : Nat) :
    (getSnapshot g false viewer fuel).marketTrueValues = none := by
  cases viewer with
  | none => rfl
  | some v0 =>
    by_cases h :
        (lookupA (g.players.map (fun kv => (kv.1, sanitizePlayerState g kv.2))) v0).isSome = true
    · simp [getSnapshot, h]
    · simp [getSnapshot, h]

/-- Snapshot players for a non-GM recipient without a viewer id: the
sanitized player list. -/
theorem getSnapshot_false_none_players (g : Game) (fuel : Nat) :
    (getSnapshot g false none fuel).players =
      g.players.map (fun kv => (kv.1, sanitizePlayerState g kv.2)) := rfl

/-- Snapshot players for a non-GM recipient with a present viewer id: the
sanitized list with the viewer's cash zeroed. -/
theorem getSnapshot_false_some_players_pos (g : Game) (v0 : Nat) (fuel : Nat)
    (h : (lookupA (g.players.map (fun kv => (kv.1, sanitizePlayerState g kv.2))) v0).isSome
          = true) :
    (getSnapshot g false (some v0) fuel).players =
      updA (g.players.map (fun kv => (kv.1, sanitizePlayerState g kv.2))) v0
        (fun p => { p with cash := 0 }) := by
  simp [getSnapshot, h]

/-- Snapshot players for a non-GM recipient whose viewer id is absent: just
the sanitized player list. -/
theorem getSnapshot_false_some_players_neg (g : Game) (v0 : Nat) (fuel : Nat)
    (h : ¬ (lookupA (g.players.map (fun kv => (kv.1, sanitizePlayerState g kv.2))) v0).isSome
          = true) :
    (getSnapshot g false (some v0) fuel).players =
      g.players.map (fun kv => (kv.1, sanitizePlayerState g kv.2)) := by
  simp [getSnapshot, h]

/-- C8: confirmed.  A snapshot projected with `forGamemaster = false` never
carries `marketTrueValues`; when `showIndividualPositions` is false every
projected player has empty positions, zero cash and zero round P&L while the
total P&L of the underlying player is preserved; and a supplied viewer id
that is present in the player map gets its own cash field zeroed. -/
theorem getSnapshot_nonGM (g : Game) (viewer : Option Nat) (fuel : Nat) :
    (getSnapshot g false viewer fuel).marketTrueValues = none ∧
    (g.showIndividualPositions = false →
      ∀ kv ∈ (getSnapshot g false viewer fuel).players,
        kv.2.positions = [] ∧ kv.2.cash = 0 ∧ kv.2.roundPnl = 0 ∧
        ∃ p0, (kv.1, p0) ∈ g.players ∧ kv.2.totalPnl = p0.totalPnl) ∧
    (∀ v, viewer = some v → (lookupA g.players v).isSome = true →
      (lookupA (getSnapshot g false viewer fuel).players v).map PlayerState.cash = some 0) := by
  refine ⟨getSnapshot_false_mtv g viewer fuel, ?_, ?_⟩
  · intro hhide kv hkv
    have hmem : ∃ kv0, kv0 ∈ g.players.map (fun kv => (kv.1, sanitizePlayerState g kv.2)) ∧
        kv.1 = kv0.1 ∧
        (kv.2 = kv0.2 ∨ kv.2 = { kv0.2 with cash := 0 }) := by
      cases viewer with
      | none =>
        rw [getSnapshot_false_none_players] at hkv
        exact ⟨kv, hkv, rfl, Or.inl rfl⟩
      | some v0 =>
        by_cases h : (lookupA (g.players.map
            (fun kv => (kv.1, sanitizePlayerState g kv.2))) v0).isSome = true
        · rw [getSnapshot_false_some_players_pos g v0 fuel h] at hkv
          exact mem_updA hkv
        · rw [getSnapshot_false_some_players_neg g v0 fuel h] at hkv
          exact ⟨kv, hkv, rfl, Or.inl rfl⟩
    obtain ⟨kv0, hkv0, hfst, hsnd⟩ := hmem
    obtain ⟨⟨k1, p1⟩, hp1, heq⟩ := List.mem_map.mp hkv0
    rw [← heq] at hfst hsnd
    rcases hsnd with h2 | h2 <;>
      (rw [h2]
       simp [sanitizePlayerState, hhide]
       refine ⟨p1, ?_, rfl⟩
       rw [show kv.1 = k1 from hfst]
       exact hp1)
  · intro v hv hpres0
    subst hv
    have hpres : (lookupA (g.players.map
        (fun kv => (kv.1, sanitizePlayerState g kv.2))) v).isSome = true := by
      rw [lookupA_map_val]
      simpa using hpres0
    rw [getSnapshot_false_some_players_pos g v fuel hpres, lookupA_updA_self, lookupA_map_val]
    obtain ⟨p, hp⟩ := Option.isSome_iff_exists.mp hpres0
    rw [hp]
    rfl

/-- C8 witness: the filtering evaluated on `gHide` (positions hidden, player
1 present) with player 1 as the viewer. -/
theorem getSnapshot_nonGM_witness :
    (getSnapshot gHide false (some 1) 1).marketTrueValues = none ∧
    (∀ kv ∈ (getSnapshot gHide false (some 1) 1).players,
      kv.2.positions = [] ∧ kv.2.cash = 0 ∧ kv.2.roundPnl = 0 ∧
      ∃ p0, (kv.1, p0) ∈ gHide.players ∧ kv.2.totalPnl = p0.totalPnl) ∧
    (lookupA (getSnapshot gHide false (some 1) 1).players 1).map PlayerState.cash = some 0 := by
  obtain ⟨h1, h2, h3⟩ := getSnapshot_nonGM gHide (some 1) 1
  exact ⟨h1, h2 rfl, h3 1 rfl rfl⟩

set_option maxHeartbeats 1000000 in
/-- C7: confirmed.  A successful forced trade with quote `(bid, ask)`,
direction `d` and quantity `q`, with both principals present and holding a
position entry for the round's market, changes the caller's cash by
`−ask·q` (buy) or `+bid·q` (sell), the market maker's cash by the exact
opposite, and the two position quantities by `±q` and `∓q`; both the cash
deltas and the position deltas sum to zero. -/
theorem executeForcedTrade_conservation (g : Game) (pid : Nat) (d : Direction) (q : ℚ)
    (r : RoundState) (qt : Quote) (mmId : Nat) (pl mmPl : PlayerState) (pos mpos : Position)
    (hr : g.round = some r)
    (hq : r.marketMakerQuote = some qt)
    (hmm : r.bestSpreadPlayerId = some mmId)
    (hpl : lookupA g.players pid = some pl)
    (hmmPl : lookupA g.players mmId = some mmPl)
    (hpos : lookupA pl.positions r.marketId = some pos)
    (hmpos : lookupA mmPl.positions r.marketId = some mpos)
    (hok : (executeForcedTrade g pid d q).1 = true) :
    (lookupA (executeForcedTrade g pid d q).2.players pid).map PlayerState.cash =
      some (pl.cash + (if d = Direction.buy then -qt.ask * q else qt.bid * q)) ∧
    (lookupA (executeForcedTrade g pid d q).2.players mmId).map PlayerState.cash =
      some (mmPl.cash - (if d = Direction.buy then -qt.ask * q else qt.bid * q)) ∧
    ((pl.cash + (if d = Direction.buy then -qt.ask * q else qt.bid * q)) - pl.cash) +
      ((mmPl.cash - (if d = Direction.buy then -qt.ask * q else qt.bid * q)) - mmPl.cash)
        = 0 ∧
    ((lookupA (executeForcedTrade g pid d q).2.players pid).bind
        (fun p => lookupA p.positions r.marketId)).map Position.quantity =
      some (pos.quantity + (if d = Direction.buy then q else -q)) ∧
    ((lookupA (executeForcedTrade g pid d q).2.players mmId).bind
        (fun p => lookupA p.positions r.marketId)).map Position.quantity =
      some (mpos.quantity - (if d = Direction.buy then q else -q)) ∧
    ((pos.quantity + (if d = Direction.buy then q else -q)) - pos.quantity) +
      ((mpos.quantity - (if d = Direction.buy then q else -q)) - mpos.quantity) = 0 := by
  have hgm : ¬ isGamemasterP g pid = true := by
    intro h
    simp [executeForcedTrade, h] at hok
  have hstage : r.stage = RoundStage.FORCED_TRADING := by
    by_contra h
    have h2 : r.stage ≠ RoundStage.FORCED_TRADING := h
    simp [executeForcedTrade, hr, hgm, h2] at hok
  have hne : ¬ mmId = pid := by
    intro h
    simp [executeForcedTrade, hr, hq, hmm, hgm, hstage, h] at hok
  have hq0 : ¬ q ≤ 0 := by
    intro h
    simp [executeForcedTrade, hr, hq, hmm, hpl, hgm, hstage, hne, h] at hok
  cases d with
  | buy =>
    have hex1 : ¬ wouldExceedExposure g pid r.marketId q = true := by
      intro h
      simp [executeForcedTrade, hr, hq, hmm, hpl, hgm, hstage, hne, hq0, h] at hok
    have hex2 : ¬ wouldExceedExposure g mmId r.marketId (-q) = true := by
      intro h
      simp [executeForcedTrade, hr, hq, hmm, hpl, hmmPl, hgm, hstage, hne, hq0, hex1,
        h] at hok
    have hplayers : (executeForcedTrade g pid Direction.buy q).2.players =
        updA (updA g.players pid (fun p =>
          { p with cash := p.cash + -qt.ask * q,
                   positions := updA p.positions r.marketId
                     (fun ps => posAfterFill ps q qt.ask q) })) mmId
          (fun p =>
          { p with cash := p.cash - -qt.ask * q,
                   positions := updA p.positions r.marketId
                     (fun ps => { ps with quantity := ps.quantity - q }) }) := by
      simp [executeForcedTrade, hr, hq, hmm, hpl, hmmPl, hgm, hstage, hne, hq0,
        hex1, hex2]
    rw [hplayers]
    refine ⟨?_, ?_, by simp; try ring, ?_, ?_, by simp; try ring⟩
    · rw [lookupA_updA_ne _ _ _ _ (fun h => hne h.symm), lookupA_updA_self, hpl]
      first
      | rfl
      | (simp only [Option.map_some', Option.some.injEq]
         ring)
    · rw [lookupA_updA_self, lookupA_updA_ne _ _ _ _ hne, hmmPl]
      first
      | rfl
      | (simp only [Option.map_some', Option.some.injEq]
         ring)
    · rw [lookupA_updA_ne _ _ _ _ (fun h => hne h.symm), lookupA_updA_self, hpl]
      simp only [Option.map_some', Option.some_bind]
      rw [lookupA_updA_self, hpos]
      first
      | rfl
      | (simp only [Option.map_some', Option.some.injEq, posAfterFill]
         simp
         try ring)
    · rw [lookupA_updA_self, lookupA_updA_ne _ _ _ _ hne, hmmPl]
      simp only [Option.map_some', Option.some_bind]
      rw [lookupA_updA_self, hmpos]
      first
      | rfl
      | (simp only [Option.map_some', Option.some.injEq, posAfterFill]
         simp
         try ring)
  | sell =>
    have hex1 : ¬ wouldExceedExposure g pid r.marketId (-q) = true := by
      intro h
      simp [executeForcedTrade, hr, hq, hmm, hpl, hgm, hstage, hne, hq0, h] at hok
    have hex2 : ¬ wouldExceedExposure g mmId r.marketId q = true := by
      intro h
      simp [executeForcedTrade, hr, hq, hmm, hpl, hmmPl, hgm, hstage, hne, hq0, hex1,
        h] at hok
    have hplayers : (executeForcedTrade g pid Direction.sell q).2.players =
        updA (updA g.players pid (fun p =>
          { p with cash := p.cash + qt.bid * q,
                   positions := updA p.positions r.marketId
                     (fun ps => posAfterFill ps (-q) qt.bid q) })) mmId
          (fun p =>
          { p with cash := p.cash - qt.bid * q,
                   positions := updA p.positions r.marketId
                     (fun ps => { ps with quantity := ps.quantity + q }) }) := by
      simp [executeForcedTrade, hr, hq, hmm, hpl, hmmPl, hgm, hstage, hne, hq0,
        hex1, hex2]
    rw [hplayers]
    refine ⟨?_, ?_, by simp; try ring, ?_, ?_, by simp; try ring⟩
    · rw [lookupA_updA_ne _ _ _ _ (fun h => hne h.symm), lookupA_updA_self, hpl]
      first
      | rfl
      | (simp only [Option.map_some', Option.some.injEq]
         ring)
    · rw [lookupA_updA_self, lookupA_updA_ne _ _ _ _ hne, hmmPl]
      first
      | rfl
      | (simp only [Option.map_some', Option.some.injEq]
         ring)
    · rw [lookupA_updA_ne _ _ _ _ (fun h => hne h.symm), lookupA_updA_self, hpl]
      simp only [Option.map_some', Option.some_bind]
      rw [lookupA_updA_self, hpos]
      first
      | rfl
      | (simp only [Option.map_some', Option.some.injEq, posAfterFill]
         simp
         try ring)
    · rw [lookupA_updA_self, lookupA_updA_ne _ _ _ _ hne, hmmPl]
      simp only [Option.map_some', Option.some_bind]
      rw [lookupA_updA_self, hmpos]
      first
      | rfl
      | (simp only [Option.map_some', Option.some.injEq, posAfterFill]
         simp
         try ring)

/-- C7 witness: scenario S1 of the spec — player 1 forced-buys 5 against
player 2's quote (99, 101): cash 10000 − 101·5 for the caller and
10000 + 101·5 for the market maker. -/
theorem executeForcedTrade_conservation_witness :
    (lookupA (executeForcedTrade gMM 1 Direction.buy 5).2.players 1).map PlayerState.cash
      = some (10000 + -101 * 5) ∧
    (lookupA (executeForcedTrade gMM 1 Direction.buy 5).2.players 2).map PlayerState.cash
      = some (10000 - -101 * 5) := by
  have hok : (executeForcedTrade gMM 1 Direction.buy 5).1 = true := by
    norm_num [executeForcedTrade, gMM, baseGame, baseRound, basePlayer, isGamemasterP,
      lookupA, wouldExceedExposure]
  have h := executeForcedTrade_conservation gMM 1 Direction.buy 5
    { baseRound with
      stage := RoundStage.FORCED_TRADING, bestSpread := some 2,
      bestSpreadPlayerId := some 2, marketMakerQuote := some ⟨99, 101⟩ }
    ⟨99, 101⟩ 2 basePlayer basePlayer ⟨0, none⟩ ⟨0, none⟩
    rfl rfl rfl rfl rfl rfl rfl hok
  exact ⟨h.1, h.2.1⟩

/-- C10 counterexample: in `gGhost` the recorded quote has bid 0 and the
market maker (id 99) has left; a forced sell of 5 by player 1 succeeds, but
the executed price is 0, so the total cash held by present players does not
change — the claimed "sum of cash deltas is non-zero" fails. -/
theorem executeForcedTrade_ghost_zero_sum :
    (executeForcedTrade gGhost 1 Direction.sell 5).1 = true ∧
    sumCash (executeForcedTrade gGhost 1 Direction.sell 5).2.players = sumCash gGhost.players := by
  norm_num [executeForcedTrade, gGhost, baseGame, baseRound, basePlayer, isGamemasterP,
    lookupA, wouldExceedExposure, updA, sumCash, posAfterFill] <;> decide

/-- C10 amended: if the best-spread player's id is gone from the player map,
a forced trade by a valid caller still succeeds and applies cash and position
deltas to the caller only, leaving every other present player untouched; the
total cash of present players changes by exactly the caller's delta, which is
non-zero whenever the executed price is non-zero (with a zero bid or ask it
can be zero). -/
theorem executeForcedTrade_absent_mm (g : Game) (pid : Nat) (d : Direction) (q : ℚ)
    (r : RoundState) (qt : Quote) (mmId : Nat) (pl : PlayerState)
    (hr : g.round = some r)
    (hstage : r.stage = RoundStage.FORCED_TRADING)
    (hq : r.marketMakerQuote = some qt)
    (hmm : r.bestSpreadPlayerId = some mmId)
    (hgone : lookupA g.players mmId = none)
    (hpl : lookupA g.players pid = some pl)
    (hgm : pl.isGamemaster = false)
    (hqty : 0 < q)
    (hexp : wouldExceedExposure g pid r.marketId (if d = Direction.buy then q else -q) = false)
    (hnd : (g.players.map Prod.fst).Nodup) :
    (executeForcedTrade g pid d q).1 = true ∧
    lookupA (executeForcedTrade g pid d q).2.players pid =
      some { pl with
             cash := pl.cash + (if d = Direction.buy then -qt.ask * q else qt.bid * q),
             positions := updA pl.positions r.marketId
               (fun ps => posAfterFill ps (if d = Direction.buy then q else -q)
                 (if d = Direction.buy then qt.ask else qt.bid) q) } ∧
    (∀ k, k ≠ pid → lookupA (executeForcedTrade g pid d q).2.players k = lookupA g.players k) ∧
    sumCash (executeForcedTrade g pid d q).2.players =
      sumCash g.players + (if d = Direction.buy then -qt.ask * q else qt.bid * q) ∧
    ((if d = Direction.buy then qt.ask else qt.bid) ≠ 0 →
      sumCash (executeForcedTrade g pid d q).2.players ≠ sumCash g.players) := by
  have hne : ¬ mmId = pid := by
    intro h
    rw [h, hpl] at hgone
    cases hgone
  have hgm2 : ¬ isGamemasterP g pid = true := by simp [isGamemasterP, hpl, hgm]
  have hq0 : ¬ q ≤ 0 := not_le.mpr hqty
  cases d with
  | buy =>
    have hexp2 : wouldExceedExposure g pid r.marketId q = false := by simpa using hexp
    have hres : executeForcedTrade g pid Direction.buy q =
        (true, { g with players := updA g.players pid (fun p =>
          { p with cash := p.cash + -qt.ask * q,
                   positions := updA p.positions r.marketId
                     (fun ps => posAfterFill ps q qt.ask q) }) }) := by
      simp [executeForcedTrade, hr, hstage, hq, hmm, hgone, hpl, hgm2, hne, hq0, hexp2]
    rw [hres]
    refine ⟨rfl, ?_, ?_, ?_, ?_⟩
    · dsimp only
      rw [lookupA_updA_self, hpl]
      rfl
    · intro k hk
      dsimp only
      exact lookupA_updA_ne _ _ _ _ hk
    · dsimp only
      rw [sumCash_updA g.players pid _ pl hnd hpl]
      simp
      ring
    · intro hpr
      dsimp only
      rw [sumCash_updA g.players pid _ pl hnd hpl]
      intro heq
      have hnz : qt.ask * q ≠ 0 := mul_ne_zero hpr (ne_of_gt hqty)
      apply hnz
      simp at heq
      linarith
  | sell =>
    have hexp2 : wouldExceedExposure g pid r.marketId (-q) = false := by simpa using hexp
    have hres : executeForcedTrade g pid Direction.sell q =
        (true, { g with players := updA g.players pid (fun p =>
          { p with cash := p.cash + qt.bid * q,
                   positions := updA p.positions r.marketId
                     (fun ps => posAfterFill ps (-q) qt.bid q) }) }) := by
      simp [executeForcedTrade, hr, hstage, hq, hmm, hgone, hpl, hgm2, hne, hq0, hexp2]
    rw [hres]
    refine ⟨rfl, ?_, ?_, ?_, ?_⟩
    · dsimp only
      rw [lookupA_updA_self, hpl]
      rfl
    · intro k hk
      dsimp only
      exact lookupA_updA_ne _ _ _ _ hk
    · dsimp only
      rw [sumCash_updA g.players pid _ pl hnd hpl]
      simp
      ring
    · intro hpr
      dsimp only
      rw [sumCash_updA g.players pid _ pl hnd hpl]
      intro heq
      have hnz : qt.bid * q ≠ 0 := mul_ne_zero hpr (ne_of_gt hqty)
      apply hnz
      simp at heq
      linarith

/-- C10 witness: the amended statement on `gGhost` with a forced buy of 5 at
ask 2: the sum of present players' cash drops by 10, which is non-zero. -/
theorem executeForcedTrade_absent_mm_witness :
    (executeForcedTrade gGhost 1 Direction.buy 5).1 = true ∧
    sumCash (executeForcedTrade gGhost 1 Direction.buy 5).2.players =
      sumCash gGhost.players + -2 * 5 ∧
    sumCash (executeForcedTrade gGhost 1 Direction.buy 5).2.players ≠ sumCash gGhost.players := by
  have h := executeForcedTrade_absent_mm gGhost 1 Direction.buy 5
    { baseRound with
      stage := RoundStage.FORCED_TRADING, bestSpread := some 2,
      bestSpreadPlayerId := some 99, marketMakerQuote := some ⟨0, 2⟩ }
    ⟨0, 2⟩ 99 basePlayer rfl rfl rfl rfl rfl rfl rfl (by norm_num)
    (by norm_num [wouldExceedExposure, gGhost, baseGame])
    (by simp [gGhost, baseGame])
  exact ⟨h.1, h.2.2.2.1, h.2.2.2.2 (by norm_num)⟩

/-- An uncrossed book has a positive spread. -/
theorem getSpread_pos_of_heads (bk : Book)
    (h : ∀ bb ba, bk.bids.head? = some bb → bk.asks.head? = some ba → bb.price < ba.price) :
    ∀ s, getSpread bk = some s → 0 < s := by
  intro s hs
  unfold getSpread at hs
  rcases hb : bk.bids with _ | ⟨bb, bs⟩
  · rw [hb] at hs
    simp at hs
  · rcases ha : bk.asks with _ | ⟨ba, ar⟩
    · rw [hb, ha] at hs
      simp at hs
    · rw [hb, ha] at hs
      injection hs with hs
      have := h bb ba (by rw [hb]; rfl) (by rw [ha]; rfl)
      rw [← hs]
      linarith

/-- C9: confirmed.  When `addOrder` runs without a validator the resulting
book is never crossed: if both sides are non-empty the best bid is strictly
below the best ask, so `getSpread` is positive.  When a validator refuses a
fill, matching stops with the book still crossed: on `bkAsk5` (resting ask at
5) an always-false validator leaves a bid at 10 resting against the ask, and
`getSpread` returns −5 ≤ 0. -/
theorem addOrder_uncrossed :
    (∀ (bk : Book) (pid : Nat) (side : Side) (price qty : ℚ) (bk1 : Book) (o : BOrder)
        (trades : List Trade),
      addOrder bk pid side price qty none = Except.ok (bk1, o, trades) →
      (∀ bb ba, bk1.bids.head? = some bb → bk1.asks.head? = some ba → bb.price < ba.price) ∧
      (∀ s, getSpread bk1 = some s → 0 < s)) ∧
    ((addOrder bkAsk5 2 Side.bid 10 1 (some valFalse)).toOption.map
        (fun p => (getSpread p.1, p.1.bids.length, p.1.asks.length))
      = some (some (-5), 1, 1) ∧ (-5 : ℚ) ≤ 0) := by
  constructor
  · intro bk pid side price qty bk1 o trades h
    simp only [addOrder] at h
    by_cases h0 : qty ≤ 0 ∨ price ≤ 0
    · rw [if_pos h0] at h
      cases h
    · rw [if_neg h0] at h
      simp only [Except.ok.injEq, Prod.mk.injEq] at h
      obtain ⟨h1, h2, h3⟩ := h
      have huncross : ∀ bb ba, bk1.bids.head? = some bb → bk1.asks.head? = some ba →
          bb.price < ba.price := by
        intro bb ba hbh hah
        rw [← h1] at hbh hah
        exact matchLoop_uncrossed bk.marketId _ _ _ _ le_rfl bb ba hbh hah
      exact ⟨huncross, getSpread_pos_of_heads _ huncross⟩
  · constructor
    · norm_num [addOrder, matchLoop, sortOrd, insertOrd, bidLE, askLE, valFalse, bkAsk5,
        getSpread, Except.toOption]
    · norm_num

/-- C9 witness: a crossing bid at 7 for 3 units against resting asks at 5 and
9 fills one unit at 5 and rests; the final book has spread 9 − 7 = 2 > 0. -/
theorem addOrder_uncrossed_witness :
    ∃ bk1 o trades, addOrder bkAsk59 3 Side.bid 7 3 none = Except.ok (bk1, o, trades) ∧
      (∀ s, getSpread bk1 = some s → 0 < s) ∧ getSpread bk1 = some 2 := by
  have hcalc : addOrder bkAsk59 3 Side.bid 7 3 none =
      Except.ok
        (({ marketId := 0, bids := [⟨2, 3, Side.bid, 7, 3, 2, 2⟩],
            asks := [⟨1, 8, Side.ask, 9, 5, 5, 1⟩], indexCounter := 3,
            lastTradePrice := some 5 } : Book),
         (⟨2, 3, Side.bid, 7, 3, 2, 2⟩ : BOrder),
         ([⟨0, 2, 0, 3, 7, 5, 1⟩] : List Trade)) := by
    norm_num [addOrder, matchLoop, sortOrd, insertOrd, bidLE, askLE, bkAsk59]
  refine ⟨_, _, _, hcalc, (addOrder_uncrossed.1 _ _ _ _ _ _ _ _ hcalc).2, ?_⟩
  norm_num [getSpread]

/-- C6 witness: in a one-step match of a bid at 102 (inserted second) against
a resting ask at 100 (inserted first), the produced trade carries the resting
order's price 100. -/
theorem matchLoop_price_priority_witness :
    ∃ bi ai bp ap,
      (((⟨0, 1, 0, 10, 20, 100, 3⟩ : Trade).bidOrderId, bi, bp)
        ∈ [(⟨1, 10, Side.bid, 102, 3, 3, 1⟩ : BOrder)].map osig) ∧
      (((⟨0, 1, 0, 10, 20, 100, 3⟩ : Trade).askOrderId, ai, ap)
        ∈ [(⟨0, 20, Side.ask, 100, 3, 3, 0⟩ : BOrder)].map osig) ∧
      (bi < ai → (⟨0, 1, 0, 10, 20, 100, 3⟩ : Trade).price = bp) ∧
      (ai ≤ bi → (⟨0, 1, 0, 10, 20, 100, 3⟩ : Trade).price = ap) :=
  matchLoop_price_priority 0 none 2 [⟨1, 10, Side.bid, 102, 3, 3, 1⟩]
    [⟨0, 20, Side.ask, 100, 3, 3, 0⟩] none ⟨0, 1, 0, 10, 20, 100, 3⟩
    (by norm_num [matchLoop])

/-- C1: refuted (code bug).  On `gExpo` (exposure limit 5, all positions
flat), player 2's single `submitOrder` for 10 units produces a batch of two
fills of 5; the validator checks each fill against the pre-batch positions,
both pass, and after the batch is applied player 2 holds 10 > 5 in the
market — the batch carried the position past the limit. -/
theorem submitOrder_exposure_breach :
    (submitOrder gExpo 2 Side.bid 10 10).1 = true ∧
    (submitOrder gExpo 2 Side.bid 10 10).2.1.length = 2 ∧
    ((lookupA (submitOrder gExpo 2 Side.bid 10 10).2.2.players 2).map
      (fun p => (lookupA p.positions 0).map Position.quantity)) = some (some 10) ∧
    gExpo.maxExposure = 5 ∧ ¬ (|(10 : ℚ)| ≤ 5) := by
  refine ⟨?_, ?_, ?_, rfl, by norm_num⟩ <;>
    norm_num [submitOrder, addOrder, matchLoop, sortOrd, insertOrd, bidLE, askLE,
      applyTrade, posAfterFill, updA, lookupA, isGamemasterP, wouldExceedExposure,
      gExpo, baseGame, baseRound, basePlayer]
